import Mathlib

/-!
Shallow embedding of `plugins/wasm-go/pkg/wrapper/plugin_wrapper.go` from the
higress repository: the per-exchange HTTP lifecycle state machine
(`CommonHttpCtx`), the plugin-wide context (`CommonPluginCtx`), VM-context
construction (`NewCommonVmCtxWithOptions`), the tick scheduler (`OnTick`),
and the user-attribute propagation functions
(`WriteUserAttributeToLogWithKey`, `WriteUserAttributeToTrace`).

Host functions from the proxy-wasm SDK (`proxywasm.*`), the rule matcher and
the binary-body classifiers are external collaborators; they are modelled as
oracle inputs.  Go byte slices are `List Nat`; Go `int`/`int64` values that
stay non-negative in every reachable state (body sizes, counters) are `Nat`,
timestamps are `Int`.  User callbacks are modelled as pure functions of the
arguments the source passes them; every callback invocation, body fetch and
body replacement is additionally recorded as an `Event` so that theorems can
speak about which callbacks ran and with which payloads.
-/

namespace Wrapper

/-- Go byte slice. -/
abbrev Body := List Nat

/-- `types.Action` of the proxy-wasm SDK: the per-signal action code the
wrapper returns to the host. -/
inductive Action where
  | ActionContinue
  | ActionPause
  deriving DecidableEq, Repr

/-- Observable events of one phase handler: user-callback invocations, body
fetches (`GetHttpRequestBody` / `GetHttpResponseBody`), body replacements
(`ReplaceHttpRequestBody` / `ReplaceHttpResponseBody`), the
`x_request_id` property write done at the top of `OnHttpRequestHeaders`,
and warn-level log lines on recoverable failures. -/
inductive Event (Config : Type) where
  | setRequestIdProp
  | cbRequestHeaders (cfg : Config)
  | cbResponseHeaders (cfg : Config)
  | cbRequestBody (cfg : Config) (body : Body)
  | cbResponseBody (cfg : Config) (body : Body)
  | cbStreamingRequestBody (cfg : Config) (chunk : Body) (eos : Bool)
  | cbStreamingResponseBody (cfg : Config) (chunk : Body) (eos : Bool)
  | cbStreamDone (cfg : Config)
  | fetchRequestBody (start size : Nat)
  | fetchResponseBody (start size : Nat)
  | replaceRequestBody (b : Body)
  | replaceResponseBody (b : Body)
  | logWarn
  deriving DecidableEq, Repr

/-- Whether an event is an invocation of a user callback (header, whole-body,
streaming-body or stream-done). -/
def Event.isUserCallback {Config : Type} : Event Config → Bool
  | .cbRequestHeaders _ => true
  | .cbResponseHeaders _ => true
  | .cbRequestBody _ _ => true
  | .cbResponseBody _ _ => true
  | .cbStreamingRequestBody _ _ _ => true
  | .cbStreamingResponseBody _ _ _ => true
  | .cbStreamDone _ => true
  | _ => false

/-- Whether an event delivers response-body payload bytes to a user callback
(whole-body or streaming-body, response direction). -/
def Event.isResponseBodyCallback {Config : Type} : Event Config → Bool
  | .cbResponseBody _ _ => true
  | .cbStreamingResponseBody _ _ _ => true
  | _ => false

/-- Whether an event is a response-body fetch from the host. -/
def Event.isResponseBodyFetch {Config : Type} : Event Config → Bool
  | .fetchResponseBody _ _ => true
  | _ => false

/-- Values storable in the per-exchange `userContext` / `userAttribute`
maps (Go `interface\x7b\x7d`), closed to the kinds the claims exercise. -/
inductive AttrVal where
  | str (s : String)
  | int (n : Int)
  deriving DecidableEq, Repr

/-- `fmt.Sprint` on an `AttrVal`. -/
def AttrVal.sprint : AttrVal → String
  | .str s => s
  | .int n => toString n

/-- The optional user hooks held by `CommonVmCtx`.  Each hook is `none`
exactly when the corresponding field is nil in Go.  A callback is a pure
function of the arguments the source passes it (the exchange context and
logger arguments carry no information the claims need, so they are not
repeated here); the stream-done callback returns nothing, so only its
presence matters. -/
structure CommonVmCtx (Config : Type) where
  hasCustomConfig : Bool := true
  onHttpRequestHeaders : Option (Config → Action) := none
  onHttpRequestBody : Option (Config → Body → Action) := none
  onHttpStreamingRequestBody : Option (Config → Body → Bool → Body) := none
  onHttpResponseHeaders : Option (Config → Action) := none
  onHttpResponseBody : Option (Config → Body → Action) := none
  onHttpStreamingResponseBody : Option (Config → Body → Bool → Body) := none
  onHttpStreamDone : Option Unit := none

/-- Host-side oracle for one exchange: the rule-matcher result consumed by
`OnHttpRequestHeaders` (`GetMatchConfig`: error, no match, or a config),
the binary-body classifiers, and the body fetch/replace host calls.
`Except Unit` models a Go error result whose message is irrelevant. -/
structure HostOracle (Config : Type) where
  matchResult : Except Unit (Option Config)
  isBinaryRequestBody : Bool
  isBinaryResponseBody : Bool
  getRequestBody : Nat → Nat → Except Unit Body
  replaceRequestBody : Body → Except Unit Unit
  getResponseBody : Nat → Nat → Except Unit Body
  replaceResponseBody : Body → Except Unit Unit

/-- `CommonHttpCtx`: the per-exchange context.  `config` is nil until the
request-header phase resolves a configuration. -/
structure CommonHttpCtx (Config : Type) where
  config : Option Config
  needRequestBody : Bool
  needResponseBody : Bool
  streamingRequestBody : Bool
  streamingResponseBody : Bool
  requestBodySize : Nat
  responseBodySize : Nat
  userContext : List (String × AttrVal)
  userAttribute : List (String × AttrVal)

/-- `CommonPluginCtx.NewHttpContext`: allocates the exchange context with
empty maps and derives the need/streaming flags from which hooks are
registered. -/
def NewHttpContext {Config : Type} (vm : CommonVmCtx Config) : CommonHttpCtx Config :=
  { config := none
    needRequestBody :=
      vm.onHttpRequestBody.isSome || vm.onHttpStreamingRequestBody.isSome
    needResponseBody :=
      vm.onHttpResponseBody.isSome || vm.onHttpStreamingResponseBody.isSome
    streamingRequestBody := vm.onHttpStreamingRequestBody.isSome
    streamingResponseBody := vm.onHttpStreamingResponseBody.isSome
    requestBodySize := 0
    responseBodySize := 0
    userContext := []
    userAttribute := [] }

/-- `CommonHttpCtx.OnHttpRequestHeaders`.  Writes the `x_request_id`
property, resolves the configuration via the rule matcher
(`GetMatchConfig`); a matcher error or a nil result returns continue
without touching the context.  On a match the configuration is stored, the
binary guard clears `needRequestBody`, and the request-header callback (if
registered) is invoked and its action returned. -/
def OnHttpRequestHeaders {Config : Type} (vm : CommonVmCtx Config)
    (host : HostOracle Config) (ctx : CommonHttpCtx Config) :
    CommonHttpCtx Config × Action × List (Event Config) :=
  match host.matchResult with
  | .error _ => (ctx, .ActionContinue, [.setRequestIdProp, .logWarn])
  | .ok none => (ctx, .ActionContinue, [.setRequestIdProp])
  | .ok (some config) =>
    let ctx := { ctx with config := some config }
    let ctx := if host.isBinaryRequestBody then { ctx with needRequestBody := false } else ctx
    match vm.onHttpRequestHeaders with
    | none => (ctx, .ActionContinue, [.setRequestIdProp])
    | some f => (ctx, f config, [.setRequestIdProp, .cbRequestHeaders config])

/-- `CommonHttpCtx.OnHttpRequestBody`.  Pass-through when no configuration
was resolved or `needRequestBody` is false.  Streaming path: fetch this
signal's bytes (a fetch error leaves the chunk nil), invoke the streaming
callback, replace the outbound body with its result, continue (a replace
failure is only logged).  Buffered path: accumulate the byte counter,
pause until end-of-stream, then fetch the whole accumulated body and
return the whole-body callback's action (a fetch failure is logged and
treated as continue). -/
def OnHttpRequestBody {Config : Type} (vm : CommonVmCtx Config)
    (host : HostOracle Config) (ctx : CommonHttpCtx Config)
    (bodySize : Nat) (endOfStream : Bool) :
    CommonHttpCtx Config × Action × List (Event Config) :=
  match ctx.config with
  | none => (ctx, .ActionContinue, [])
  | some cfg =>
    if !ctx.needRequestBody then (ctx, .ActionContinue, [])
    else
      match vm.onHttpStreamingRequestBody, ctx.streamingRequestBody with
      | some f, true =>
        let chunk := (host.getRequestBody 0 bodySize).toOption.getD []
        let modifiedChunk := f cfg chunk endOfStream
        match host.replaceRequestBody modifiedChunk with
        | .error _ =>
          (ctx, .ActionContinue,
            [.fetchRequestBody 0 bodySize,
             .cbStreamingRequestBody cfg chunk endOfStream,
             .replaceRequestBody modifiedChunk, .logWarn])
        | .ok _ =>
          (ctx, .ActionContinue,
            [.fetchRequestBody 0 bodySize,
             .cbStreamingRequestBody cfg chunk endOfStream,
             .replaceRequestBody modifiedChunk])
      | _, _ =>
        match vm.onHttpRequestBody with
        | some g =>
          let ctx := { ctx with requestBodySize := ctx.requestBodySize + bodySize }
          if !endOfStream then (ctx, .ActionPause, [])
          else
            match host.getRequestBody 0 ctx.requestBodySize with
            | .error _ =>
              (ctx, .ActionContinue, [.fetchRequestBody 0 ctx.requestBodySize, .logWarn])
            | .ok body =>
              (ctx, g cfg body,
                [.fetchRequestBody 0 ctx.requestBodySize, .cbRequestBody cfg body])
        | none => (ctx, .ActionContinue, [])

/-- `CommonHttpCtx.OnHttpResponseHeaders`.  Pass-through when no
configuration was resolved; otherwise the binary guard clears
`needResponseBody` and the response-header callback (if registered) is
invoked and its action returned.  Configuration is never re-resolved. -/
def OnHttpResponseHeaders {Config : Type} (vm : CommonVmCtx Config)
    (host : HostOracle Config) (ctx : CommonHttpCtx Config) :
    CommonHttpCtx Config × Action × List (Event Config) :=
  match ctx.config with
  | none => (ctx, .ActionContinue, [])
  | some cfg =>
    let ctx := if host.isBinaryResponseBody then { ctx with needResponseBody := false } else ctx
    match vm.onHttpResponseHeaders with
    | none => (ctx, .ActionContinue, [])
    | some f => (ctx, f cfg, [.cbResponseHeaders cfg])

/-- `CommonHttpCtx.OnHttpResponseBody`: mirror image of
`OnHttpRequestBody` for the response direction. -/
def OnHttpResponseBody {Config : Type} (vm : CommonVmCtx Config)
    (host : HostOracle Config) (ctx : CommonHttpCtx Config)
    (bodySize : Nat) (endOfStream : Bool) :
    CommonHttpCtx Config × Action × List (Event Config) :=
  match ctx.config with
  | none => (ctx, .ActionContinue, [])
  | some cfg =>
    if !ctx.needResponseBody then (ctx, .ActionContinue, [])
    else
      match vm.onHttpStreamingResponseBody, ctx.streamingResponseBody with
      | some f, true =>
        let chunk := (host.getResponseBody 0 bodySize).toOption.getD []
        let modifiedChunk := f cfg chunk endOfStream
        match host.replaceResponseBody modifiedChunk with
        | .error _ =>
          (ctx, .ActionContinue,
            [.fetchResponseBody 0 bodySize,
             .cbStreamingResponseBody cfg chunk endOfStream,
             .replaceResponseBody modifiedChunk, .logWarn])
        | .ok _ =>
          (ctx, .ActionContinue,
            [.fetchResponseBody 0 bodySize,
             .cbStreamingResponseBody cfg chunk endOfStream,
             .replaceResponseBody modifiedChunk])
      | _, _ =>
        match vm.onHttpResponseBody with
        | some g =>
          let ctx := { ctx with responseBodySize := ctx.responseBodySize + bodySize }
          if !endOfStream then (ctx, .ActionPause, [])
          else
            match host.getResponseBody 0 ctx.responseBodySize with
            | .error _ =>
              (ctx, .ActionContinue, [.fetchResponseBody 0 ctx.responseBodySize, .logWarn])
            | .ok body =>
              (ctx, g cfg body,
                [.fetchResponseBody 0 ctx.responseBodySize, .cbResponseBody cfg body])
        | none => (ctx, .ActionContinue, [])

/-- `CommonHttpCtx.OnHttpStreamDone`.  The source function returns no
action; the exchange always proceeds, so the modelled action is continue.
The stream-done callback runs only when a configuration was resolved and
the hook is registered. -/
def OnHttpStreamDone {Config : Type} (vm : CommonVmCtx Config)
    (ctx : CommonHttpCtx Config) :
    CommonHttpCtx Config × Action × List (Event Config) :=
  match ctx.config with
  | none => (ctx, .ActionContinue, [])
  | some cfg =>
    match vm.onHttpStreamDone with
    | none => (ctx, .ActionContinue, [])
    | some _ => (ctx, .ActionContinue, [.cbStreamDone cfg])

/-- A phase signal the host delivers to an exchange after the
request-header phase: the remaining entry points of `CommonHttpCtx`. -/
inductive Signal where
  | requestBody (size : Nat) (eos : Bool)
  | responseHeaders
  | responseBody (size : Nat) (eos : Bool)
  | streamDone
  deriving DecidableEq, Repr

/-- Dispatch one phase signal to the corresponding handler. -/
def stepSignal {Config : Type} (vm : CommonVmCtx Config)
    (host : HostOracle Config) (ctx : CommonHttpCtx Config) :
    Signal → CommonHttpCtx Config × Action × List (Event Config)
  | .requestBody size eos => OnHttpRequestBody vm host ctx size eos
  | .responseHeaders => OnHttpResponseHeaders vm host ctx
  | .responseBody size eos => OnHttpResponseBody vm host ctx size eos
  | .streamDone => OnHttpStreamDone vm ctx

/-- Deliver a list of phase signals in order, collecting every action
returned to the host and every event. -/
def runSignals {Config : Type} (vm : CommonVmCtx Config)
    (host : HostOracle Config) (ctx : CommonHttpCtx Config) :
    List Signal → CommonHttpCtx Config × List Action × List (Event Config)
  | [] => (ctx, [], [])
  | s :: rest =>
    let (ctx1, a, evs) := stepSignal vm host ctx s
    let (ctx2, as2, evs2) := runSignals vm host ctx1 rest
    (ctx2, a :: as2, evs ++ evs2)

/-! ## Tick scheduler (`TickFuncEntry`, `CommonPluginCtx.OnTick`) -/

/-- One registered periodic callback: its last-fired timestamp and period
in milliseconds (`int64`).  The callback itself is a nullary closure;
invocations are reported through the scheduler's output instead. -/
structure TickFuncEntry where
  lastExecuted : Int
  tickPeriod : Int
  deriving DecidableEq, Repr

/-- `RegisteTickFunc`: a staged entry starts with `lastExecuted = 0`. -/
def RegisteTickFunc (tickPeriod : Int) : TickFuncEntry :=
  { lastExecuted := 0, tickPeriod := tickPeriod }

/-- One entry's evaluation within `OnTick` at observed time `now`
(`time.Now().UnixMilli()` is re-read for each entry): the entry fires when
`now - lastExecuted ≥ tickPeriod`, in which case its callback runs and its
timestamp becomes `now`. -/
def tickEntryStep (now : Int) (e : TickFuncEntry) : TickFuncEntry × Bool :=
  if e.tickPeriod ≤ now - e.lastExecuted then
    ({ e with lastExecuted := now }, true)
  else (e, false)

/-- `CommonPluginCtx.OnTick`: evaluate all entries in registration order;
`clock i` is the timestamp observed when entry number `i` is evaluated
(the source reads the clock once per entry, inside the loop).  Returns the
updated entries together with, in the same order, whether each entry's
callback was invoked during this tick. -/
def OnTick (clock : Nat → Int) (i : Nat) :
    List TickFuncEntry → List TickFuncEntry × List Bool
  | [] => ([], [])
  | e :: rest =>
    let s := tickEntryStep (clock i) e
    let tail := OnTick clock (i + 1) rest
    (s.1 :: tail.1, s.2 :: tail.2)

/-- Deliver `n` tick signals at times `G, 2*G, ..., n*G` (ticks arriving
exactly every granularity `G`, each tick evaluation instantaneous so every
entry observes the tick's arrival time).  Returns the entries after the
last tick and the cumulative number of times each entry fired. -/
def runTicks (G : Int) (es : List TickFuncEntry) :
    Nat → List TickFuncEntry × List Nat
  | 0 => (es, List.replicate es.length 0)
  | n + 1 =>
    let prev := runTicks G es n
    let t := OnTick (fun _ => ((n : Int) + 1) * G) 0 prev.1
    (t.1, List.zipWith (fun c f => c + if f then 1 else 0) prev.2 t.2)

/-- Reference run of a single entry through `n` ticks delivered at times
`G, 2*G, ..., n*G`: the entry after the last tick together with how often
it fired.  Each tick applies the same per-entry evaluation
`tickEntryStep` that `OnTick` applies within the full list. -/
def singleRun (G : Int) (e : TickFuncEntry) : Nat → TickFuncEntry × Nat
  | 0 => (e, 0)
  | n + 1 =>
    let prev := singleRun G e n
    let s := tickEntryStep (((n : Int) + 1) * G) prev.1
    (s.1, prev.2 + if s.2 then 1 else 0)

/-! ## VM-context construction and plugin start -/

/-- Abstract structured-data value (`gjson.Result`): either the zero value
or the result of `gjson.ParseBytes` on some raw bytes.  Its internal
structure belongs to the external gjson collaborator. -/
inductive GJson where
  | zeroValue
  | parsed (raw : List Nat)
  deriving DecidableEq, Repr

/-- Go `ParseConfigFunc`: structured data plus an in/out configuration,
returning an error or the updated configuration. -/
def ParseConfigFn (Config : Type) := GJson → Config → Except Unit Config

/-- `parseEmptyPluginConfig`: always succeeds and leaves the configuration
untouched. -/
def parseEmptyPluginConfig (Config : Type) : ParseConfigFn Config :=
  fun _ c => .ok c

/-- The fields of `CommonVmCtx` that `NewCommonVmCtxWithOptions` inspects:
the config-parser slot and the has-custom-config flag (the callback hooks
are carried through unchanged by construction and are kept in
`CommonVmCtx` above). -/
structure VmCtxUnderConstruction (Config : Type) where
  hasCustomConfig : Bool
  parseConfig : Option (ParseConfigFn Config)

/-- A `CtxOption`'s `Apply`: mutates the context under construction. -/
abbrev CtxOption (Config : Type) :=
  VmCtxUnderConstruction Config → VmCtxUnderConstruction Config

/-- `ParseConfigBy`: option installing a config parser. -/
def ParseConfigBy {Config : Type} (f : ParseConfigFn Config) : CtxOption Config :=
  fun c => { c with parseConfig := some f }

/-- `NewCommonVmCtxWithOptions`.  The context starts with
`hasCustomConfig = true` and no parser, options are applied in order, and
then a missing parser is fatal (`panic`, modelled as `Except.error`)
unless the declared configuration type has zero size
(`unsafe.Sizeof(config) == 0`, modelled by `configTypeSizeZero`), in
which case the no-op parser is substituted and `hasCustomConfig` is
cleared. -/
def NewCommonVmCtxWithOptions (Config : Type) (configTypeSizeZero : Bool)
    (options : List (CtxOption Config)) :
    Except Unit (VmCtxUnderConstruction Config) :=
  let ctx : VmCtxUnderConstruction Config :=
    options.foldl (fun c o => o c) { hasCustomConfig := true, parseConfig := none }
  match ctx.parseConfig with
  | some _ => .ok ctx
  | none =>
    if !configTypeSizeZero then .error ()
    else .ok { hasCustomConfig := false,
               parseConfig := some (parseEmptyPluginConfig Config) }

/-- Result of `proxywasm.GetPluginConfiguration`: bytes, the not-found
error (treated as empty configuration), or another error. -/
inductive ReadConfigResult where
  | ok (data : List Nat)
  | errNotFound
  | errOther
  deriving DecidableEq, Repr

/-- The raw bytes a `ReadConfigResult` carries (`nil` on error). -/
def ReadConfigResult.bytes : ReadConfigResult → List Nat
  | .ok data => data
  | _ => []

/-- Host and collaborator oracle for `OnPluginStart`: the configuration
read, `gjson.ValidBytes`, the outcome of the rule matcher's
`ParseRuleConfig` on the structured data it is handed, the tick entries
staged by `RegisteTickFunc` during config parsing (`globalOnTickFuncs`,
reset to nil at the top of start — nil iff no registration ran), and the
outcome of `SetTickPeriodMilliSeconds(100)`. -/
structure StartHost where
  readConfig : ReadConfigResult
  gjsonValid : List Nat → Bool
  buildRuleSet : GJson → Except Unit Unit
  stagedTicks : List TickFuncEntry
  setTickPeriod : Except Unit Unit

/-- `types.OnPluginStartStatus`. -/
inductive StartStatus where
  | OK
  | Failed
  deriving DecidableEq, Repr

/-- Observable outcome of `OnPluginStart`: the returned status, whether the
empty-config warning was logged, the structured data handed to the rule
matcher (`none` when the matcher was never reached), the tick entries
captured onto the plugin context, and whether the 100 ms tick timer was
armed. -/
structure StartOutcome where
  status : StartStatus
  warnedEmptyConfig : Bool
  jsonForRuleSet : Option GJson
  onTickFuncs : List TickFuncEntry
  armedTimer100 : Bool
  deriving Repr

/-- Tail of `OnPluginStart` from the rule-set build on: build failure fails
start; otherwise, when tick entries were staged they are captured and the
100 ms timer armed, an arming failure failing start. -/
def startAfterJson (host : StartHost) (js : GJson) (warned : Bool) : StartOutcome :=
  match host.buildRuleSet js with
  | .error _ =>
    { status := .Failed, warnedEmptyConfig := warned, jsonForRuleSet := some js
      onTickFuncs := [], armedTimer100 := false }
  | .ok _ =>
    if host.stagedTicks = [] then
      { status := .OK, warnedEmptyConfig := warned, jsonForRuleSet := some js
        onTickFuncs := [], armedTimer100 := false }
    else
      match host.setTickPeriod with
      | .error _ =>
        { status := .Failed, warnedEmptyConfig := warned, jsonForRuleSet := some js
          onTickFuncs := host.stagedTicks, armedTimer100 := false }
      | .ok _ =>
        { status := .OK, warnedEmptyConfig := warned, jsonForRuleSet := some js
          onTickFuncs := host.stagedTicks, armedTimer100 := true }

/-- `CommonPluginCtx.OnPluginStart`.  A configuration-read error other than
not-found fails start.  Empty bytes keep the zero-value structured data
and, when a parser was explicitly registered (`hasCustomConfig`), log a
warning; non-empty bytes must be valid structured data or start fails.
Then the rule set is built and the tick timer armed as in
`startAfterJson`. -/
def OnPluginStart (hasCustomConfig : Bool) (host : StartHost) : StartOutcome :=
  match host.readConfig with
  | .errOther =>
    { status := .Failed, warnedEmptyConfig := false, jsonForRuleSet := none
      onTickFuncs := [], armedTimer100 := false }
  | r =>
    let data := r.bytes
    if data.isEmpty then
      startAfterJson host GJson.zeroValue hasCustomConfig
    else if !host.gjsonValid data then
      { status := .Failed, warnedEmptyConfig := false, jsonForRuleSet := none
        onTickFuncs := [], armedTimer100 := false }
    else
      startAfterJson host (GJson.parsed data) false

/-- The structured data `OnPluginStart` hands to the rule matcher when it
gets that far: the zero value on empty bytes, the parsed bytes
otherwise. -/
def startJson (host : StartHost) : GJson :=
  if host.readConfig.bytes.isEmpty then .zeroValue
  else .parsed host.readConfig.bytes

/-! ## Attribute propagation (`WriteUserAttributeToLogWithKey`,
`WriteUserAttributeToTrace`) -/

/-- Modelled from the spec: the external log property carries a
doubly-encoded serialization of a string-keyed object; the encoding
helpers `unmarshalStr`, `marshalStr` and the `encoding/json` codec live
outside this source file.  A stored value is absent/empty, the escaped
serialization of an object — represented by its binding list, key-sorted
as Go's `encoding/json` serializes maps — or a malformed string that
fails to parse. -/
inductive LogPropVal where
  | absent
  | encodedObj (entries : List (String × AttrVal))
  | malformed
  deriving DecidableEq, Repr

/-- Whether the stored property value reads back as the empty string
(`GetProperty` failure or an empty value; the serialization of an object,
even the empty one, is never the empty string). -/
def LogPropVal.isEmptyStr : LogPropVal → Bool
  | .absent => true
  | _ => false

/-- Modelled from the spec: `unmarshalStr` + `json.Unmarshal` on a stored
log property value.  A well-formed encoded object parses back to its
bindings; anything else fails. -/
def parseLogProp : LogPropVal → Except Unit (List (String × AttrVal))
  | .encodedObj m => .ok m
  | _ => .error ()

/-- Insert a binding into a key-sorted association list, replacing any
existing binding for the key: Go map assignment, observed through
sorted-key serialization. -/
def insertSorted (k : String) (v : AttrVal) :
    List (String × AttrVal) → List (String × AttrVal)
  | [] => [(k, v)]
  | (k1, v1) :: rest =>
    if k < k1 then (k, v) :: (k1, v1) :: rest
    else if k = k1 then (k, v) :: rest
    else (k1, v1) :: insertSorted k v rest

/-- Overlay the accumulator's bindings onto a base object, later bindings
winning (`for k, v := range ctx.userAttribute` assigning into the map). -/
def overlayAttrs (base : List (String × AttrVal))
    (attrs : List (String × AttrVal)) : List (String × AttrVal) :=
  attrs.foldl (fun m kv => insertSorted kv.1 kv.2 m) base

/-- `CommonHttpCtx.WriteUserAttributeToLogWithKey`, given the prior stored
value of the log property and the outcome of the `SetProperty` host call.
Returns the Go error result and the property value stored after the call
(unchanged whenever an error is returned). -/
def WriteUserAttributeToLogWithKey {Config : Type} (setResult : Except Unit Unit)
    (prior : LogPropVal) (ctx : CommonHttpCtx Config) :
    Except Unit Unit × LogPropVal :=
  let parsed : Except Unit (List (String × AttrVal)) :=
    if prior.isEmptyStr then .ok [] else parseLogProp prior
  match parsed with
  | .error _ => (.error (), prior)
  | .ok base =>
    let merged := overlayAttrs base ctx.userAttribute
    match setResult with
    | .error _ => (.error (), prior)
    | .ok _ => (.ok (), .encodedObj merged)

/-- Per-key outcome of `WriteUserAttributeToTrace`: the trace property was
written, the host write failed (logged, iteration continues), or the
stringified value was empty (logged, skipped). -/
inductive TraceWriteOutcome where
  | written (tag : String) (value : String)
  | failedWrite (tag : String) (value : String)
  | emptyValue (tag : String)
  deriving DecidableEq, Repr

/-- `CommonHttpCtx.WriteUserAttributeToTrace`: for each accumulated key, in
order, attempt one trace-property write under the fixed prefix; an empty
stringified value or a failed host write is logged and skipped.  The
function ends with `return nil` regardless of per-key outcomes. -/
def WriteUserAttributeToTrace {Config : Type}
    (setProp : String → String → Except Unit Unit) (ctx : CommonHttpCtx Config) :
    Except Unit Unit × List TraceWriteOutcome :=
  (.ok (), ctx.userAttribute.map fun kv =>
    let traceSpanTag := "trace_span_tag." ++ kv.1
    let traceSpanValue := kv.2.sprint
    if traceSpanValue ≠ "" then
      match setProp traceSpanTag traceSpanValue with
      | .ok _ => .written traceSpanTag traceSpanValue
      | .error _ => .failedWrite traceSpanTag traceSpanValue
    else .emptyValue traceSpanTag)

/-- Lookup of a key in an object's binding list (Go map indexing). -/
def lookupKey (k : String) : List (String × AttrVal) → Option AttrVal
  | [] => none
  | (k1, v1) :: rest => if k = k1 then some v1 else lookupKey k rest

/-- The last value the accumulator's iteration assigns to a key, if
any: the binding that wins a within-accumulator key collision. -/
def lastBinding (k : String) (attrs : List (String × AttrVal)) : Option AttrVal :=
  lookupKey k attrs.reverse

/-- Strictly increasing keys: the canonical shape of a serialized
object (Go's `encoding/json` sorts map keys). -/
def SortedKeys (m : List (String × AttrVal)) : Prop :=
  List.Pairwise (fun a b => a.1 < b.1) m

/-! ## Sample instances, used to evaluate the model on closed inputs -/

/-- A host whose rule matcher finds no match. -/
def hostMatchNone : HostOracle Nat :=
  { matchResult := .ok none
    isBinaryRequestBody := false
    isBinaryResponseBody := false
    getRequestBody := fun _ size => .ok (List.range size)
    replaceRequestBody := fun _ => .ok ()
    getResponseBody := fun _ size => .ok (List.range size)
    replaceResponseBody := fun _ => .ok () }

/-- A host whose rule matcher resolves configuration `7`. -/
def hostMatch7 : HostOracle Nat :=
  { hostMatchNone with matchResult := .ok (some 7) }

/-- `hostMatch7` with both directions classified binary. -/
def hostBinary : HostOracle Nat :=
  { hostMatch7 with isBinaryRequestBody := true, isBinaryResponseBody := true }

/-- `hostMatch7` with failing body-replace host calls. -/
def hostReplaceFail : HostOracle Nat :=
  { hostMatch7 with
    replaceRequestBody := fun _ => .error ()
    replaceResponseBody := fun _ => .error () }

/-- `hostMatch7` with failing body-fetch host calls. -/
def hostFetchFail : HostOracle Nat :=
  { hostMatch7 with
    getRequestBody := fun _ _ => .error ()
    getResponseBody := fun _ _ => .error () }

/-- A VM context with every hook registered. -/
def vmAllHooks : CommonVmCtx Nat :=
  { hasCustomConfig := true
    onHttpRequestHeaders := some (fun _ => .ActionContinue)
    onHttpRequestBody := some (fun _ _ => .ActionContinue)
    onHttpStreamingRequestBody := some (fun _ chunk _ => chunk ++ [0])
    onHttpResponseHeaders := some (fun _ => .ActionContinue)
    onHttpResponseBody := some (fun _ _ => .ActionPause)
    onHttpStreamingResponseBody := some (fun _ chunk _ => chunk)
    onHttpStreamDone := some () }

/-- A VM context with only the whole-body hooks registered (buffered
mode). -/
def vmBuffered : CommonVmCtx Nat :=
  { vmAllHooks with
    onHttpStreamingRequestBody := none
    onHttpStreamingResponseBody := none }

/-- A matched buffered-mode exchange context. -/
def ctxMatchedBuffered : CommonHttpCtx Nat :=
  { NewHttpContext vmBuffered with config := some 7 }

/-- A matched exchange context with every hook's flags set. -/
def ctxMatchedAll : CommonHttpCtx Nat :=
  { NewHttpContext vmAllHooks with config := some 7 }

/-! ## Helper lemmas on the exchange state machine -/

/-- With no resolved configuration, every later phase handler leaves the
context unchanged, returns continue to the host and emits no event. -/
theorem stepSignal_config_none {Config : Type} (vm : CommonVmCtx Config)
    (host : HostOracle Config) (ctx : CommonHttpCtx Config)
    (h : ctx.config = none) (s : Signal) :
    stepSignal vm host ctx s = (ctx, .ActionContinue, []) := by
  cases s <;>
    simp [stepSignal, OnHttpRequestBody, OnHttpResponseHeaders,
      OnHttpResponseBody, OnHttpStreamDone, h]

/-- With no resolved configuration, a whole run of later phase signals is
pure pass-through: state unchanged, every action continue, no events. -/
theorem runSignals_config_none {Config : Type} (vm : CommonVmCtx Config)
    (host : HostOracle Config) (ctx : CommonHttpCtx Config)
    (h : ctx.config = none) (sigs : List Signal) :
    runSignals vm host ctx sigs = (ctx, sigs.map (fun _ => .ActionContinue), []) := by
  induction sigs with
  | nil => simp [runSignals]
  | cons s rest ih => simp [runSignals, stepSignal_config_none vm host ctx h s, ih]

/-! ## Claim theorems -/

/-- C1: when the request-header phase fails to resolve a configuration
(the rule matcher returns no match or an error), the exchange's resolved
configuration remains absent for the rest of its lifetime, every
subsequent phase signal (request-body, response-headers, response-body,
stream-done) returns continue to the host, and no user callback is ever
invoked for that exchange. -/
theorem unmatched_exchange_passthrough {Config : Type} (vm : CommonVmCtx Config)
    (host : HostOracle Config)
    (hmatch : host.matchResult = .ok none ∨ host.matchResult = .error ())
    (sigs : List Signal) :
    ((OnHttpRequestHeaders vm host (NewHttpContext vm)).1.config = none) ∧
    ((OnHttpRequestHeaders vm host (NewHttpContext vm)).2.1 = .ActionContinue) ∧
    (∀ e ∈ (OnHttpRequestHeaders vm host (NewHttpContext vm)).2.2,
      e.isUserCallback = false) ∧
    ((runSignals vm host (OnHttpRequestHeaders vm host (NewHttpContext vm)).1
        sigs).1.config = none) ∧
    (∀ a ∈ (runSignals vm host (OnHttpRequestHeaders vm host (NewHttpContext vm)).1
        sigs).2.1, a = .ActionContinue) ∧
    (∀ e ∈ (runSignals vm host (OnHttpRequestHeaders vm host (NewHttpContext vm)).1
        sigs).2.2, e.isUserCallback = false) := by
  have hr0 : (OnHttpRequestHeaders vm host (NewHttpContext vm)).1 = NewHttpContext vm := by
    rcases hmatch with hm | hm <;> simp [OnHttpRequestHeaders, hm]
  have hcfg : (OnHttpRequestHeaders vm host (NewHttpContext vm)).1.config = none := by
    rw [hr0]; rfl
  have hrun := runSignals_config_none vm host
    (OnHttpRequestHeaders vm host (NewHttpContext vm)).1 hcfg sigs
  refine ⟨hcfg, ?_, ?_, ?_, ?_, ?_⟩
  · rcases hmatch with hm | hm <;> simp [OnHttpRequestHeaders, hm]
  · rcases hmatch with hm | hm <;>
      simp [OnHttpRequestHeaders, hm, Event.isUserCallback]
  · rw [hrun]; exact hcfg
  · rw [hrun]; intro a ha
    obtain ⟨s, -, hs⟩ := List.mem_map.mp ha
    exact hs.symm
  · rw [hrun]; intro e he; simp at he

/-- C1 witness: with the full hook set registered and a no-match host, a
concrete exchange delivering one chunked request body, response headers,
a response body and stream-done never resolves a configuration, always
continues and fires no callback. -/
theorem unmatched_exchange_passthrough_witness :
    ((OnHttpRequestHeaders vmAllHooks hostMatchNone
        (NewHttpContext vmAllHooks)).1.config = none) ∧
    (∀ a ∈ (runSignals vmAllHooks hostMatchNone
        (OnHttpRequestHeaders vmAllHooks hostMatchNone (NewHttpContext vmAllHooks)).1
        [.requestBody 3 false, .requestBody 2 true, .responseHeaders,
         .responseBody 4 true, .streamDone]).2.1, a = .ActionContinue) ∧
    (∀ e ∈ (runSignals vmAllHooks hostMatchNone
        (OnHttpRequestHeaders vmAllHooks hostMatchNone (NewHttpContext vmAllHooks)).1
        [.requestBody 3 false, .requestBody 2 true, .responseHeaders,
         .responseBody 4 true, .streamDone]).2.2, e.isUserCallback = false) := by
  have h := unmatched_exchange_passthrough vmAllHooks hostMatchNone
    (Or.inl rfl)
    [.requestBody 3 false, .requestBody 2 true, .responseHeaders,
     .responseBody 4 true, .streamDone]
  exact ⟨h.1, h.2.2.2.2.1, h.2.2.2.2.2⟩

/-- C8: at exchange-context creation, need-body is true iff a whole-body
or a streaming-body callback is registered for that direction, streaming
is true iff a streaming-body callback is registered for that direction,
and the context starts with no configuration, empty user key-value and
user-attribute maps and zero body counters. -/
theorem newHttpContext_flags {Config : Type} (vm : CommonVmCtx Config) :
    ((NewHttpContext vm).needRequestBody = true ↔
      vm.onHttpRequestBody.isSome = true ∨
        vm.onHttpStreamingRequestBody.isSome = true) ∧
    ((NewHttpContext vm).needResponseBody = true ↔
      vm.onHttpResponseBody.isSome = true ∨
        vm.onHttpStreamingResponseBody.isSome = true) ∧
    ((NewHttpContext vm).streamingRequestBody = true ↔
      vm.onHttpStreamingRequestBody.isSome = true) ∧
    ((NewHttpContext vm).streamingResponseBody = true ↔
      vm.onHttpStreamingResponseBody.isSome = true) ∧
    (NewHttpContext vm).config = none ∧
    (NewHttpContext vm).userContext = [] ∧
    (NewHttpContext vm).userAttribute = [] ∧
    (NewHttpContext vm).requestBodySize = 0 ∧
    (NewHttpContext vm).responseBodySize = 0 := by
  simp [NewHttpContext, Bool.or_eq_true]

/-- C2: for a matched exchange with need-body true, streaming disabled and
a whole-body callback registered (each direction): a body signal with
end-of-stream false only adds the signal's byte count to the running
counter and returns pause; the end-of-stream signal fetches the whole
accumulated body in one host call (offset 0, accumulated size) and
invokes the whole-body callback exactly once with that body, returning
its action; a fetch failure is logged and treated as continue without
invoking the callback. -/
theorem wholeBody_buffering {Config : Type} (vm : CommonVmCtx Config)
    (host : HostOracle Config) (ctx : CommonHttpCtx Config) (cfg : Config)
    (g g' : Config → Body → Action)
    (hcfg : ctx.config = some cfg)
    (hneedReq : ctx.needRequestBody = true)
    (hneedResp : ctx.needResponseBody = true)
    (hgReq : vm.onHttpRequestBody = some g)
    (hgResp : vm.onHttpResponseBody = some g')
    (hstreamReq : vm.onHttpStreamingRequestBody = none ∨
      ctx.streamingRequestBody = false)
    (hstreamResp : vm.onHttpStreamingResponseBody = none ∨
      ctx.streamingResponseBody = false)
    (bodySize : Nat) :
    (OnHttpRequestBody vm host ctx bodySize false =
      ({ ctx with requestBodySize := ctx.requestBodySize + bodySize },
        .ActionPause, [])) ∧
    (∀ body, host.getRequestBody 0 (ctx.requestBodySize + bodySize) = .ok body →
      OnHttpRequestBody vm host ctx bodySize true =
        ({ ctx with requestBodySize := ctx.requestBodySize + bodySize },
          g cfg body,
          [.fetchRequestBody 0 (ctx.requestBodySize + bodySize),
           .cbRequestBody cfg body])) ∧
    (host.getRequestBody 0 (ctx.requestBodySize + bodySize) = .error () →
      OnHttpRequestBody vm host ctx bodySize true =
        ({ ctx with requestBodySize := ctx.requestBodySize + bodySize },
          .ActionContinue,
          [.fetchRequestBody 0 (ctx.requestBodySize + bodySize), .logWarn])) ∧
    (OnHttpResponseBody vm host ctx bodySize false =
      ({ ctx with responseBodySize := ctx.responseBodySize + bodySize },
        .ActionPause, [])) ∧
    (∀ body, host.getResponseBody 0 (ctx.responseBodySize + bodySize) = .ok body →
      OnHttpResponseBody vm host ctx bodySize true =
        ({ ctx with responseBodySize := ctx.responseBodySize + bodySize },
          g' cfg body,
          [.fetchResponseBody 0 (ctx.responseBodySize + bodySize),
           .cbResponseBody cfg body])) ∧
    (host.getResponseBody 0 (ctx.responseBodySize + bodySize) = .error () →
      OnHttpResponseBody vm host ctx bodySize true =
        ({ ctx with responseBodySize := ctx.responseBodySize + bodySize },
          .ActionContinue,
          [.fetchResponseBody 0 (ctx.responseBodySize + bodySize), .logWarn])) := by
  refine ⟨?_, ?_, ?_, ?_, ?_, ?_⟩
  · rcases hstreamReq with hs | hs <;>
      simp [OnHttpRequestBody, hcfg, hneedReq, hgReq, hs]
  · intro body hbody
    rcases hstreamReq with hs | hs <;>
      simp [OnHttpRequestBody, hcfg, hneedReq, hgReq, hs, hbody]
  · intro hbody
    rcases hstreamReq with hs | hs <;>
      simp [OnHttpRequestBody, hcfg, hneedReq, hgReq, hs, hbody]
  · rcases hstreamResp with hs | hs <;>
      simp [OnHttpResponseBody, hcfg, hneedResp, hgResp, hs]
  · intro body hbody
    rcases hstreamResp with hs | hs <;>
      simp [OnHttpResponseBody, hcfg, hneedResp, hgResp, hs, hbody]
  · intro hbody
    rcases hstreamResp with hs | hs <;>
      simp [OnHttpResponseBody, hcfg, hneedResp, hgResp, hs, hbody]

/-- C2 witness: a concrete buffered exchange accumulates 3 then 2 bytes,
pausing on the first chunk; at end-of-stream it fetches bytes 0..5 in one
call and hands exactly that body to the whole-body callback once; with a
failing fetch host it continues without a callback. -/
theorem wholeBody_buffering_witness :
    (OnHttpRequestBody vmBuffered hostMatch7 ctxMatchedBuffered 3 false =
      ({ ctxMatchedBuffered with requestBodySize := 3 }, .ActionPause, [])) ∧
    (OnHttpRequestBody vmBuffered hostMatch7
        { ctxMatchedBuffered with requestBodySize := 3 } 2 true =
      ({ ctxMatchedBuffered with requestBodySize := 5 }, .ActionContinue,
        [.fetchRequestBody 0 5, .cbRequestBody 7 [0, 1, 2, 3, 4]])) ∧
    (OnHttpResponseBody vmBuffered hostFetchFail ctxMatchedBuffered 4 true =
      ({ ctxMatchedBuffered with responseBodySize := 4 }, .ActionContinue,
        [.fetchResponseBody 0 4, .logWarn])) := by
  have h1 := wholeBody_buffering vmBuffered hostMatch7 ctxMatchedBuffered 7
    (fun _ _ => .ActionContinue) (fun _ _ => .ActionPause)
    rfl rfl rfl rfl rfl (Or.inl rfl) (Or.inl rfl) 3
  have h2 := wholeBody_buffering vmBuffered hostMatch7
    { ctxMatchedBuffered with requestBodySize := 3 } 7
    (fun _ _ => .ActionContinue) (fun _ _ => .ActionPause)
    rfl rfl rfl rfl rfl (Or.inl rfl) (Or.inl rfl) 2
  have h3 := wholeBody_buffering vmBuffered hostFetchFail ctxMatchedBuffered 7
    (fun _ _ => .ActionContinue) (fun _ _ => .ActionPause)
    rfl rfl rfl rfl rfl (Or.inl rfl) (Or.inl rfl) 4
  refine ⟨h1.1, ?_, h3.2.2.2.2.2 rfl⟩
  have := h2.2.1 [0, 1, 2, 3, 4] rfl
  simpa using this

/-- C3: for a matched exchange with need-body true, the streaming flag
set and a streaming-body callback registered (each direction): every body
signal fetches exactly that signal's bytes (offset 0, the signal's size),
invokes the streaming callback once with that chunk and the end-of-stream
flag, attempts to replace the outbound body with the callback's returned
bytes, and returns continue on both the success and the replace-failure
path (never pause) leaving the context unchanged; a replace failure is
only logged. -/
theorem streamingBody_dispatch {Config : Type} (vm : CommonVmCtx Config)
    (host : HostOracle Config) (ctx : CommonHttpCtx Config) (cfg : Config)
    (f f' : Config → Body → Bool → Body)
    (hcfg : ctx.config = some cfg)
    (hneedReq : ctx.needRequestBody = true)
    (hneedResp : ctx.needResponseBody = true)
    (hfReq : vm.onHttpStreamingRequestBody = some f)
    (hfResp : vm.onHttpStreamingResponseBody = some f')
    (hsReq : ctx.streamingRequestBody = true)
    (hsResp : ctx.streamingResponseBody = true)
    (bodySize : Nat) (endOfStream : Bool) :
    (∀ chunk, (host.getRequestBody 0 bodySize).toOption.getD [] = chunk →
      (host.replaceRequestBody (f cfg chunk endOfStream) = .ok () →
        OnHttpRequestBody vm host ctx bodySize endOfStream =
          (ctx, .ActionContinue,
            [.fetchRequestBody 0 bodySize,
             .cbStreamingRequestBody cfg chunk endOfStream,
             .replaceRequestBody (f cfg chunk endOfStream)])) ∧
      (host.replaceRequestBody (f cfg chunk endOfStream) = .error () →
        OnHttpRequestBody vm host ctx bodySize endOfStream =
          (ctx, .ActionContinue,
            [.fetchRequestBody 0 bodySize,
             .cbStreamingRequestBody cfg chunk endOfStream,
             .replaceRequestBody (f cfg chunk endOfStream), .logWarn]))) ∧
    (∀ chunk, (host.getResponseBody 0 bodySize).toOption.getD [] = chunk →
      (host.replaceResponseBody (f' cfg chunk endOfStream) = .ok () →
        OnHttpResponseBody vm host ctx bodySize endOfStream =
          (ctx, .ActionContinue,
            [.fetchResponseBody 0 bodySize,
             .cbStreamingResponseBody cfg chunk endOfStream,
             .replaceResponseBody (f' cfg chunk endOfStream)])) ∧
      (host.replaceResponseBody (f' cfg chunk endOfStream) = .error () →
        OnHttpResponseBody vm host ctx bodySize endOfStream =
          (ctx, .ActionContinue,
            [.fetchResponseBody 0 bodySize,
             .cbStreamingResponseBody cfg chunk endOfStream,
             .replaceResponseBody (f' cfg chunk endOfStream), .logWarn]))) := by
  constructor
  · intro chunk hchunk
    constructor <;> intro hrep <;>
      simp [OnHttpRequestBody, hcfg, hneedReq, hfReq, hsReq, hchunk, hrep]
  · intro chunk hchunk
    constructor <;> intro hrep <;>
      simp [OnHttpResponseBody, hcfg, hneedResp, hfResp, hsResp, hchunk, hrep]

/-- C3 witness: a concrete streaming exchange with a 3-byte chunk fetches
exactly bytes 0..3, invokes the streaming callback with that chunk and
the end-of-stream flag, forwards the callback's returned bytes, and
returns continue; with a failing replace host it still returns continue
and only logs. -/
theorem streamingBody_dispatch_witness :
    (OnHttpRequestBody vmAllHooks hostMatch7 ctxMatchedAll 3 false =
      (ctxMatchedAll, .ActionContinue,
        [.fetchRequestBody 0 3,
         .cbStreamingRequestBody 7 [0, 1, 2] false,
         .replaceRequestBody [0, 1, 2, 0]])) ∧
    (OnHttpResponseBody vmAllHooks hostReplaceFail ctxMatchedAll 2 true =
      (ctxMatchedAll, .ActionContinue,
        [.fetchResponseBody 0 2,
         .cbStreamingResponseBody 7 [0, 1] true,
         .replaceResponseBody [0, 1], .logWarn])) := by
  have h1 := streamingBody_dispatch vmAllHooks hostMatch7 ctxMatchedAll 7
    (fun _ chunk _ => chunk ++ [0]) (fun _ chunk _ => chunk)
    rfl rfl rfl rfl rfl rfl rfl 3 false
  have h2 := streamingBody_dispatch vmAllHooks hostReplaceFail ctxMatchedAll 7
    (fun _ chunk _ => chunk ++ [0]) (fun _ chunk _ => chunk)
    rfl rfl rfl rfl rfl rfl rfl 2 true
  exact ⟨(h1.1 [0, 1, 2] rfl).1 rfl, (h2.2 [0, 1] rfl).2 rfl⟩

/-- Buffered-path case of `OnHttpRequestBody_response_untouched`. -/
theorem OnHttpRequestBody_response_untouched_buffered {Config : Type}
    (vm : CommonVmCtx Config) (host : HostOracle Config)
    (ctx : CommonHttpCtx Config) (cfg : Config) (bodySize : Nat)
    (endOfStream : Bool) (hc : ctx.config = some cfg)
    (hpair : vm.onHttpStreamingRequestBody = none ∨
      ctx.streamingRequestBody = false) :
    ((OnHttpRequestBody vm host ctx bodySize endOfStream).1.needResponseBody =
      ctx.needResponseBody) ∧
    (∀ e ∈ (OnHttpRequestBody vm host ctx bodySize endOfStream).2.2,
      e.isResponseBodyCallback = false ∧ e.isResponseBodyFetch = false) := by
  rcases hn : ctx.needRequestBody with _ | _
  · simp [OnHttpRequestBody, hc, hn]
  rcases hg : vm.onHttpRequestBody with _ | g
  · rcases hpair with hp | hp <;> simp [OnHttpRequestBody, hc, hn, hp, hg]
  cases endOfStream with
  | false =>
    rcases hpair with hp | hp <;> simp [OnHttpRequestBody, hc, hn, hp, hg]
  | true =>
    rcases hb : host.getRequestBody 0 (ctx.requestBodySize + bodySize)
        with ⟨u⟩ | ⟨body⟩ <;>
      rcases hpair with hp | hp <;>
      simp [OnHttpRequestBody, hc, hn, hp, hg, hb,
        Event.isResponseBodyCallback, Event.isResponseBodyFetch]

/-- The request-body handler never touches the response direction: it
preserves `needResponseBody` and emits no response-side fetch or payload
callback event. -/
theorem OnHttpRequestBody_response_untouched {Config : Type}
    (vm : CommonVmCtx Config) (host : HostOracle Config)
    (ctx : CommonHttpCtx Config) (bodySize : Nat) (endOfStream : Bool) :
    ((OnHttpRequestBody vm host ctx bodySize endOfStream).1.needResponseBody =
      ctx.needResponseBody) ∧
    (∀ e ∈ (OnHttpRequestBody vm host ctx bodySize endOfStream).2.2,
      e.isResponseBodyCallback = false ∧ e.isResponseBodyFetch = false) := by
  rcases hc : ctx.config with _ | cfg
  · simp [OnHttpRequestBody, hc]
  rcases hf : vm.onHttpStreamingRequestBody with _ | f
  · exact OnHttpRequestBody_response_untouched_buffered vm host ctx cfg
      bodySize endOfStream hc (Or.inl hf)
  rcases hs : ctx.streamingRequestBody with _ | _
  · exact OnHttpRequestBody_response_untouched_buffered vm host ctx cfg
      bodySize endOfStream hc (Or.inr hs)
  rcases hn : ctx.needRequestBody with _ | _
  · simp [OnHttpRequestBody, hc, hn]
  rcases hrep : host.replaceRequestBody
      (f cfg ((host.getRequestBody 0 bodySize).toOption.getD []) endOfStream)
      with ⟨u⟩ | ⟨u⟩ <;>
    simp [OnHttpRequestBody, hc, hn, hf, hs, hrep,
      Event.isResponseBodyCallback, Event.isResponseBodyFetch]

/-- Once `needResponseBody` is false, every phase signal keeps it false
and emits no response-side fetch or payload callback event; a
response-body signal is in addition a pure pass-through (state unchanged,
continue, no events at all). -/
theorem stepSignal_preserves_noResponseBody {Config : Type}
    (vm : CommonVmCtx Config) (host : HostOracle Config)
    (ctx : CommonHttpCtx Config) (h : ctx.needResponseBody = false)
    (s : Signal) :
    ((stepSignal vm host ctx s).1.needResponseBody = false) ∧
    (∀ e ∈ (stepSignal vm host ctx s).2.2,
      e.isResponseBodyCallback = false ∧ e.isResponseBodyFetch = false) := by
  cases s with
  | requestBody size eos =>
    have hr := OnHttpRequestBody_response_untouched vm host ctx size eos
    exact ⟨by rw [stepSignal, hr.1, h], by simpa [stepSignal] using hr.2⟩
  | responseHeaders =>
    constructor
    · rcases hc : ctx.config with _ | cfg <;>
        cases hb : host.isBinaryResponseBody <;>
        rcases hf : vm.onHttpResponseHeaders with _ | f <;>
        simp [stepSignal, OnHttpResponseHeaders, hc, hb, hf, h]
    · rcases hc : ctx.config with _ | cfg <;>
        rcases hf : vm.onHttpResponseHeaders with _ | f <;>
        simp [stepSignal, OnHttpResponseHeaders, hc, hf,
          Event.isResponseBodyCallback, Event.isResponseBodyFetch]
  | responseBody size eos =>
    rcases hc : ctx.config with _ | cfg <;>
      simp [stepSignal, OnHttpResponseBody, hc, h]
  | streamDone =>
    rcases hc : ctx.config with _ | cfg <;>
      rcases hf : vm.onHttpStreamDone with _ | u <;>
      simp [stepSignal, OnHttpStreamDone, hc, hf, h,
        Event.isResponseBodyCallback, Event.isResponseBodyFetch]

/-- Once `needResponseBody` is false, it stays false over any run of
phase signals, and the run emits no response-side fetch or payload
callback event. -/
theorem runSignals_preserves_noResponseBody {Config : Type}
    (vm : CommonVmCtx Config) (host : HostOracle Config)
    (ctx : CommonHttpCtx Config) (h : ctx.needResponseBody = false)
    (sigs : List Signal) :
    ((runSignals vm host ctx sigs).1.needResponseBody = false) ∧
    (∀ e ∈ (runSignals vm host ctx sigs).2.2,
      e.isResponseBodyCallback = false ∧ e.isResponseBodyFetch = false) := by
  induction sigs generalizing ctx with
  | nil => exact ⟨h, by simp [runSignals]⟩
  | cons s rest ih =>
    have hstep := stepSignal_preserves_noResponseBody vm host ctx h s
    have hrest := ih (stepSignal vm host ctx s).1 hstep.1
    constructor
    · simpa [runSignals] using hrest.1
    · intro e he
      simp only [runSignals, List.mem_append] at he
      rcases he with he | he
      · exact hstep.2 e he
      · exact hrest.2 e he

/-- C7: if the response is classified binary at the response-header phase
of a matched exchange, need-response-body is forced to false; with the
flag false, every response-body signal returns continue without fetching
bytes and without invoking any response body callback, and no later
signal ever re-enables the flag or delivers response payload bytes; the
request direction applies the same guard at the request-header phase
after a successful match. -/
theorem binary_body_guard {Config : Type} (vm : CommonVmCtx Config)
    (host : HostOracle Config) :
    (∀ (ctx : CommonHttpCtx Config) (cfg : Config), ctx.config = some cfg →
      host.isBinaryResponseBody = true →
      (OnHttpResponseHeaders vm host ctx).1.needResponseBody = false) ∧
    (∀ (ctx : CommonHttpCtx Config) (cfg : Config),
      host.matchResult = .ok (some cfg) → host.isBinaryRequestBody = true →
      (OnHttpRequestHeaders vm host ctx).1.needRequestBody = false) ∧
    (∀ ctx : CommonHttpCtx Config, ctx.needResponseBody = false →
      ∀ (size : Nat) (eos : Bool),
        OnHttpResponseBody vm host ctx size eos = (ctx, .ActionContinue, [])) ∧
    (∀ ctx : CommonHttpCtx Config, ctx.needResponseBody = false →
      ∀ sigs : List Signal,
        ((runSignals vm host ctx sigs).1.needResponseBody = false) ∧
        (∀ e ∈ (runSignals vm host ctx sigs).2.2,
          e.isResponseBodyCallback = false ∧ e.isResponseBodyFetch = false)) := by
  refine ⟨?_, ?_, ?_, ?_⟩
  · intro ctx cfg hc hbin
    rcases hf : vm.onHttpResponseHeaders with _ | f <;>
      simp [OnHttpResponseHeaders, hc, hbin, hf]
  · intro ctx cfg hm hbin
    rcases hf : vm.onHttpRequestHeaders with _ | f <;>
      simp [OnHttpRequestHeaders, hm, hbin, hf]
  · intro ctx h size eos
    rcases hc : ctx.config with _ | cfg <;>
      simp [OnHttpResponseBody, hc, h]
  · intro ctx h sigs
    exact runSignals_preserves_noResponseBody vm host ctx h sigs

/-- C7 witness: with every hook registered and the response classified
binary, the response-header phase of a concrete matched exchange forces
need-response-body false, a subsequent response-body signal is a pure
pass-through, the request-header phase forces need-request-body false,
and a concrete signal run emits no response payload or fetch event. -/
theorem binary_body_guard_witness :
    ((OnHttpResponseHeaders vmAllHooks hostBinary
        ctxMatchedAll).1.needResponseBody = false) ∧
    ((OnHttpRequestHeaders vmAllHooks hostBinary
        (NewHttpContext vmAllHooks)).1.needRequestBody = false) ∧
    (OnHttpResponseBody vmAllHooks hostBinary
        { ctxMatchedAll with needResponseBody := false } 5 true =
      ({ ctxMatchedAll with needResponseBody := false }, .ActionContinue, [])) ∧
    (∀ e ∈ (runSignals vmAllHooks hostBinary
        { ctxMatchedAll with needResponseBody := false }
        [.responseBody 5 false, .responseBody 2 true, .streamDone]).2.2,
      e.isResponseBodyCallback = false ∧ e.isResponseBodyFetch = false) := by
  have h := binary_body_guard vmAllHooks hostBinary
  exact ⟨h.1 ctxMatchedAll 7 rfl rfl,
    h.2.1 (NewHttpContext vmAllHooks) 7 rfl rfl,
    h.2.2.1 { ctxMatchedAll with needResponseBody := false } rfl 5 true,
    (h.2.2.2 { ctxMatchedAll with needResponseBody := false } rfl
      [.responseBody 5 false, .responseBody 2 true, .streamDone]).2⟩

/-- C9: `NewCommonVmCtxWithOptions` fails fatally iff no option supplied a
config parser and the declared configuration type has non-zero size; when
the parser is missing but the type has zero size, construction succeeds
with the no-op parser substituted and the has-custom-config flag cleared;
when a parser was supplied, construction succeeds with the applied
context unchanged. -/
theorem newCommonVmCtx_parser_contract (Config : Type) (sizeZero : Bool)
    (options : List (CtxOption Config)) :
    (NewCommonVmCtxWithOptions Config sizeZero options = .error () ↔
      (options.foldl (fun c o => o c)
        ({ hasCustomConfig := true, parseConfig := none } :
          VmCtxUnderConstruction Config)).parseConfig = none ∧
      sizeZero = false) ∧
    ((options.foldl (fun c o => o c)
        ({ hasCustomConfig := true, parseConfig := none } :
          VmCtxUnderConstruction Config)).parseConfig = none →
      sizeZero = true →
      NewCommonVmCtxWithOptions Config sizeZero options =
        .ok { hasCustomConfig := false,
              parseConfig := some (parseEmptyPluginConfig Config) }) ∧
    (∀ f, (options.foldl (fun c o => o c)
        ({ hasCustomConfig := true, parseConfig := none } :
          VmCtxUnderConstruction Config)).parseConfig = some f →
      NewCommonVmCtxWithOptions Config sizeZero options =
        .ok (options.foldl (fun c o => o c)
          ({ hasCustomConfig := true, parseConfig := none } :
            VmCtxUnderConstruction Config))) := by
  refine ⟨?_, ?_, ?_⟩
  · rcases hp : (options.foldl (fun c o => o c)
        { hasCustomConfig := true, parseConfig := none } :
        VmCtxUnderConstruction Config).parseConfig with _ | f <;>
      cases sizeZero <;>
      simp [NewCommonVmCtxWithOptions, hp]
  · intro hp hz
    simp [NewCommonVmCtxWithOptions, hp, hz]
  · intro f hp
    simp [NewCommonVmCtxWithOptions, hp]

/-- C9 witness: with no options and a non-zero-size configuration type,
construction fails fatally; with no options and a zero-size type it
succeeds with the no-op parser and the flag cleared; supplying
`ParseConfigBy` makes it succeed with the parser installed. -/
theorem newCommonVmCtx_parser_contract_witness :
    (NewCommonVmCtxWithOptions Nat false [] = .error ()) ∧
    (NewCommonVmCtxWithOptions Unit true [] =
      .ok { hasCustomConfig := false,
            parseConfig := some (parseEmptyPluginConfig Unit) }) ∧
    (NewCommonVmCtxWithOptions Nat false
        [ParseConfigBy (parseEmptyPluginConfig Nat)] =
      .ok { hasCustomConfig := true,
            parseConfig := some (parseEmptyPluginConfig Nat) }) := by
  refine ⟨?_, ?_, ?_⟩
  · exact (newCommonVmCtx_parser_contract Nat false []).1.mpr ⟨rfl, rfl⟩
  · exact (newCommonVmCtx_parser_contract Unit true []).2.1 rfl rfl
  · exact (newCommonVmCtx_parser_contract Nat false
      [ParseConfigBy (parseEmptyPluginConfig Nat)]).2.2
      (parseEmptyPluginConfig Nat) rfl

/-- C10: `WriteUserAttributeToTrace` always returns a nil error, for every
accumulator content and host behavior; every accumulated key produces
exactly one per-key outcome in iteration order (so a failed or skipped
key never stops iteration), each key's outcome depending only on that
key's binding: skipped when the stringified value is empty, logged when
the host write fails, written otherwise. -/
theorem writeUserAttributeToTrace_total {Config : Type}
    (setProp : String → String → Except Unit Unit)
    (ctx : CommonHttpCtx Config) :
    ((WriteUserAttributeToTrace setProp ctx).1 = .ok ()) ∧
    ((WriteUserAttributeToTrace setProp ctx).2.length =
      ctx.userAttribute.length) ∧
    (∀ i (hi : i < ctx.userAttribute.length),
      (WriteUserAttributeToTrace setProp ctx).2[i]? =
        some (let kv := ctx.userAttribute.get ⟨i, hi⟩
          let traceSpanTag := "trace_span_tag." ++ kv.1
          if kv.2.sprint ≠ "" then
            match setProp traceSpanTag kv.2.sprint with
            | .ok _ => .written traceSpanTag kv.2.sprint
            | .error _ => .failedWrite traceSpanTag kv.2.sprint
          else .emptyValue traceSpanTag)) := by
  refine ⟨rfl, by simp [WriteUserAttributeToTrace], ?_⟩
  intro i hi
  simp [WriteUserAttributeToTrace, List.getElem?_map,
    List.getElem?_eq_getElem hi, List.get_eq_getElem]

/-- C10 witness: a concrete accumulator holding an empty-stringified value
and a key whose host write fails still yields a nil error, with all three
keys processed. -/
theorem writeUserAttributeToTrace_total_witness :
    ((WriteUserAttributeToTrace
        (fun tag _ => if tag = "trace_span_tag.bad" then .error () else .ok ())
        { ctxMatchedAll with userAttribute :=
            [("a", .str "1"), ("empty", .str ""), ("bad", .str "x")] }).1 =
      .ok ()) ∧
    ((WriteUserAttributeToTrace
        (fun tag _ => if tag = "trace_span_tag.bad" then .error () else .ok ())
        { ctxMatchedAll with userAttribute :=
            [("a", .str "1"), ("empty", .str ""), ("bad", .str "x")] }).2.length = 3) ∧
    ((WriteUserAttributeToTrace
        (fun tag _ => if tag = "trace_span_tag.bad" then .error () else .ok ())
        { ctxMatchedAll with userAttribute :=
            [("a", .str "1"), ("empty", .str ""), ("bad", .str "x")] }).2[2]? =
      some (.failedWrite "trace_span_tag.bad" "x")) := by
  have h := @writeUserAttributeToTrace_total Nat
    (fun tag _ => if tag = "trace_span_tag.bad" then .error () else .ok ())
    { ctxMatchedAll with userAttribute :=
        [("a", .str "1"), ("empty", .str ""), ("bad", .str "x")] }
  refine ⟨h.1, h.2.1, ?_⟩
  have h2 := h.2.2 2 (by decide)
  simpa [AttrVal.sprint] using h2

/-- Characterization of `startAfterJson`: it fails exactly on a rule-set
build failure or a tick-arming failure with staged entries, carries the
warning flag through, and records the structured data it received. -/
theorem startAfterJson_status (host : StartHost) (js : GJson) (warned : Bool) :
    ((startAfterJson host js warned).status = .Failed ↔
      host.buildRuleSet js = .error () ∨
      (host.stagedTicks ≠ [] ∧ host.setTickPeriod = .error ())) ∧
    ((startAfterJson host js warned).status = .OK ↔
      ¬(host.buildRuleSet js = .error () ∨
        (host.stagedTicks ≠ [] ∧ host.setTickPeriod = .error ()))) ∧
    (startAfterJson host js warned).warnedEmptyConfig = warned ∧
    (startAfterJson host js warned).jsonForRuleSet = some js := by
  rcases hb : host.buildRuleSet js with ⟨⟨⟩⟩ | ⟨⟨⟩⟩ <;>
    by_cases hst : host.stagedTicks = [] <;>
    rcases ht : host.setTickPeriod with ⟨⟨⟩⟩ | ⟨⟨⟩⟩ <;>
    simp [startAfterJson, hb, hst, ht]

/-- C6: `OnPluginStart` returns exactly one of ok or failed, and fails iff
the configuration read errs with other than not-found, non-empty raw
bytes are invalid structured data, the rule-set build fails, or tick
entries were staged and arming the tick timer fails; with empty raw bytes
and an explicitly registered config parser, the warning is emitted and
start proceeds on the zero-value structured data, returning ok when no
such failure occurs. -/
theorem onPluginStart_status (hasCustomConfig : Bool) (host : StartHost) :
    ((OnPluginStart hasCustomConfig host).status = .OK ∨
      (OnPluginStart hasCustomConfig host).status = .Failed) ∧
    ((OnPluginStart hasCustomConfig host).status = .Failed ↔
      (host.readConfig = .errOther ∨
       (host.readConfig.bytes ≠ [] ∧
         host.gjsonValid host.readConfig.bytes = false) ∨
       host.buildRuleSet (startJson host) = .error () ∨
       (host.stagedTicks ≠ [] ∧ host.setTickPeriod = .error ()))) ∧
    (host.readConfig ≠ .errOther → host.readConfig.bytes = [] →
      hasCustomConfig = true →
      ((OnPluginStart hasCustomConfig host).warnedEmptyConfig = true ∧
       (OnPluginStart hasCustomConfig host).jsonForRuleSet =
          some GJson.zeroValue ∧
       (¬(host.buildRuleSet GJson.zeroValue = .error () ∨
           (host.stagedTicks ≠ [] ∧ host.setTickPeriod = .error ())) →
         (OnPluginStart hasCustomConfig host).status = .OK))) := by
  have hjs := startAfterJson_status host
  refine ⟨?_, ?_, ?_⟩
  · cases h : (OnPluginStart hasCustomConfig host).status
    · exact Or.inl rfl
    · exact Or.inr rfl
  · rcases hr : host.readConfig with data | _ | _
    · by_cases hd : data = []
      · subst hd
        have e1 : OnPluginStart hasCustomConfig host =
            startAfterJson host GJson.zeroValue hasCustomConfig := by
          simp [OnPluginStart, hr, ReadConfigResult.bytes]
        have e2 : startJson host = GJson.zeroValue := by
          simp [startJson, hr, ReadConfigResult.bytes]
        rw [e1, e2, (hjs GJson.zeroValue hasCustomConfig).1]
        simp [hr, ReadConfigResult.bytes]
      · cases hv : host.gjsonValid data
        · have e1 : (OnPluginStart hasCustomConfig host).status = .Failed := by
            simp [OnPluginStart, hr, hv, hd, ReadConfigResult.bytes,
              List.isEmpty_iff]
          rw [e1]
          simp [hr, ReadConfigResult.bytes, hd, hv]
        · have e1 : OnPluginStart hasCustomConfig host =
              startAfterJson host (GJson.parsed data) false := by
            simp [OnPluginStart, hr, hv, hd, ReadConfigResult.bytes,
              List.isEmpty_iff]
          have e2 : startJson host = GJson.parsed data := by
            simp [startJson, hr, hd, ReadConfigResult.bytes, List.isEmpty_iff]
          rw [e1, e2, (hjs (GJson.parsed data) false).1]
          simp [hr, ReadConfigResult.bytes, hd, hv]
    · have e1 : OnPluginStart hasCustomConfig host =
          startAfterJson host GJson.zeroValue hasCustomConfig := by
        simp [OnPluginStart, hr, ReadConfigResult.bytes]
      have e2 : startJson host = GJson.zeroValue := by
        simp [startJson, hr, ReadConfigResult.bytes]
      rw [e1, e2, (hjs GJson.zeroValue hasCustomConfig).1]
      simp [hr, ReadConfigResult.bytes]
    · simp [OnPluginStart, hr]
  · intro hother hempty hcustom
    rcases hr : host.readConfig with data | _ | _
    · have hd : data = [] := by
        have := hempty; rw [hr] at this; exact this
      subst hd hcustom
      have h := hjs GJson.zeroValue true
      constructor
      · simpa [OnPluginStart, hr, ReadConfigResult.bytes] using h.2.2.1
      constructor
      · simpa [OnPluginStart, hr, ReadConfigResult.bytes] using h.2.2.2
      · intro hok
        have := h.2.1.mpr hok
        simpa [OnPluginStart, hr, ReadConfigResult.bytes] using this
    · subst hcustom
      have h := hjs GJson.zeroValue true
      refine ⟨?_, ?_, ?_⟩
      · simpa [OnPluginStart, hr, ReadConfigResult.bytes] using h.2.2.1
      · simpa [OnPluginStart, hr, ReadConfigResult.bytes] using h.2.2.2
      · intro hok
        have := h.2.1.mpr hok
        simpa [OnPluginStart, hr, ReadConfigResult.bytes] using this
    · exact absurd hr hother

/-- C6 witness: a concrete start with empty raw bytes, a registered
parser, a succeeding rule-set build and one staged tick entry with a
succeeding timer arm warns and returns ok; flipping the arm to fail makes
it fail. -/
theorem onPluginStart_status_witness :
    ((OnPluginStart true
        { readConfig := .ok []
          gjsonValid := fun _ => true
          buildRuleSet := fun _ => .ok ()
          stagedTicks := [RegisteTickFunc 1000]
          setTickPeriod := .ok () }).status = .OK) ∧
    ((OnPluginStart true
        { readConfig := .ok []
          gjsonValid := fun _ => true
          buildRuleSet := fun _ => .ok ()
          stagedTicks := [RegisteTickFunc 1000]
          setTickPeriod := .ok () }).warnedEmptyConfig = true) ∧
    ((OnPluginStart true
        { readConfig := .ok []
          gjsonValid := fun _ => true
          buildRuleSet := fun _ => .ok ()
          stagedTicks := [RegisteTickFunc 1000]
          setTickPeriod := .error () }).status = .Failed) := by
  have h1 := (onPluginStart_status true
    { readConfig := .ok []
      gjsonValid := fun _ => true
      buildRuleSet := fun _ => .ok ()
      stagedTicks := [RegisteTickFunc 1000]
      setTickPeriod := .ok () }).2.2 (by simp) rfl rfl
  have h2 := (onPluginStart_status true
    { readConfig := .ok []
      gjsonValid := fun _ => true
      buildRuleSet := fun _ => .ok ()
      stagedTicks := [RegisteTickFunc 1000]
      setTickPeriod := .error () }).2.1.mpr
    (Or.inr (Or.inr (Or.inr ⟨by simp, rfl⟩)))
  exact ⟨h1.2.2 (by simp), h1.1, h2⟩

/-! ## Association-list lemmas for the attribute-log merge -/

/-- Looking a key up after an ordered insert sees the inserted value for
that key and is unchanged elsewhere. -/
theorem lookupKey_insertSorted (k k' : String) (v : AttrVal)
    (m : List (String × AttrVal)) :
    lookupKey k (insertSorted k' v m) =
      if k = k' then some v else lookupKey k m := by
  induction m with
  | nil => simp [insertSorted, lookupKey]
  | cons kv rest ih =>
    obtain ⟨k1, v1⟩ := kv
    rcases lt_trichotomy k' k1 with h1 | h1 | h1
    · simp [insertSorted, h1, lookupKey]
    · subst h1
      simp only [insertSorted, lt_irrefl, if_neg (lt_irrefl k'), if_pos rfl,
        lookupKey]
      split_ifs with hk
      · rfl
      · simp [lookupKey, hk]
    · have hnlt : ¬k' < k1 := not_lt_of_gt h1
      have hne : ¬k' = k1 := (ne_of_gt h1)
      simp only [insertSorted, if_neg hnlt, if_neg hne, lookupKey, ih]
      by_cases hk : k = k1
      · subst hk
        have hkk : ¬k = k' := ne_of_lt h1
        simp [hkk]
      · simp [hk]

/-- Every element of an ordered insert carries the inserted key or was
already present. -/
theorem mem_insertSorted (k : String) (v : AttrVal)
    (m : List (String × AttrVal)) (x : String × AttrVal)
    (hx : x ∈ insertSorted k v m) : x.1 = k ∨ x ∈ m := by
  induction m with
  | nil =>
    simp [insertSorted] at hx
    subst hx
    exact Or.inl rfl
  | cons kv rest ih =>
    obtain ⟨k1, v1⟩ := kv
    rcases lt_trichotomy k k1 with h1 | h1 | h1
    · rw [show insertSorted k v ((k1, v1) :: rest) = (k, v) :: (k1, v1) :: rest
          from by simp [insertSorted, h1]] at hx
      rcases List.mem_cons.mp hx with rfl | hx
      · exact Or.inl rfl
      · exact Or.inr hx
    · subst h1
      rw [show insertSorted k v ((k, v1) :: rest) = (k, v) :: rest
          from by simp [insertSorted, lt_irrefl]] at hx
      rcases List.mem_cons.mp hx with rfl | hx
      · exact Or.inl rfl
      · exact Or.inr (List.mem_cons_of_mem _ hx)
    · rw [show insertSorted k v ((k1, v1) :: rest) =
            (k1, v1) :: insertSorted k v rest
          from by simp [insertSorted, not_lt_of_gt h1, ne_of_gt h1]] at hx
      rcases List.mem_cons.mp hx with rfl | hx
      · exact Or.inr (List.mem_cons_self _ _)
      · rcases ih hx with hk | hm
        · exact Or.inl hk
        · exact Or.inr (List.mem_cons_of_mem _ hm)

/-- An ordered insert into a key-sorted list is key-sorted. -/
theorem insertSorted_sorted (k : String) (v : AttrVal)
    (m : List (String × AttrVal)) (hm : SortedKeys m) :
    SortedKeys (insertSorted k v m) := by
  induction m with
  | nil =>
    simp [insertSorted, SortedKeys]
  | cons kv rest ih =>
    obtain ⟨k1, v1⟩ := kv
    rw [SortedKeys, List.pairwise_cons] at hm
    obtain ⟨hall, hrest⟩ := hm
    rcases lt_trichotomy k k1 with h1 | h1 | h1
    · rw [show insertSorted k v ((k1, v1) :: rest) = (k, v) :: (k1, v1) :: rest
          from by simp [insertSorted, h1]]
      refine List.Pairwise.cons ?_ (List.Pairwise.cons hall hrest)
      intro b hb
      rcases List.mem_cons.mp hb with rfl | hb
      · exact h1
      · exact lt_trans h1 (hall b hb)
    · subst h1
      rw [show insertSorted k v ((k, v1) :: rest) = (k, v) :: rest
          from by simp [insertSorted, lt_irrefl]]
      exact List.Pairwise.cons hall hrest
    · rw [show insertSorted k v ((k1, v1) :: rest) =
            (k1, v1) :: insertSorted k v rest
          from by simp [insertSorted, not_lt_of_gt h1, ne_of_gt h1]]
      refine List.Pairwise.cons ?_ (ih hrest)
      intro b hb
      rcases mem_insertSorted k v rest b hb with hbk | hbm
      · rw [hbk]; exact h1
      · exact hall b hbm

/-- Overlay over an appended final binding is an ordered insert of that
binding. -/
theorem overlayAttrs_append_singleton (base : List (String × AttrVal))
    (attrs : List (String × AttrVal)) (a : String × AttrVal) :
    overlayAttrs base (attrs ++ [a]) =
      insertSorted a.1 a.2 (overlayAttrs base attrs) := by
  simp [overlayAttrs, List.foldl_append]

/-- Overlaying onto a key-sorted base stays key-sorted. -/
theorem overlayAttrs_sorted (base attrs : List (String × AttrVal))
    (hb : SortedKeys base) : SortedKeys (overlayAttrs base attrs) := by
  induction attrs generalizing base with
  | nil => exact hb
  | cons a rest ih => exact ih _ (insertSorted_sorted _ _ _ hb)

/-- Last write wins: after an overlay, a key reads back its last binding
in the accumulator's iteration order, or its base value when the
accumulator never binds it. -/
theorem lookupKey_overlayAttrs (base attrs : List (String × AttrVal))
    (k : String) :
    lookupKey k (overlayAttrs base attrs) =
      (lastBinding k attrs).or (lookupKey k base) := by
  induction attrs using List.reverseRecOn with
  | nil => simp [overlayAttrs, lastBinding, lookupKey, Option.or]
  | append_singleton attrs a ih =>
    obtain ⟨ka, va⟩ := a
    rw [overlayAttrs_append_singleton, lookupKey_insertSorted]
    by_cases hk : k = ka
    · subst hk
      simp [lastBinding, List.reverse_append, lookupKey, Option.or]
    · simp [lastBinding, List.reverse_append, lookupKey, hk, ih]

/-- Looking up a key bound by no element gives nothing. -/
theorem lookupKey_eq_none (k : String) (m : List (String × AttrVal))
    (h : ∀ kv ∈ m, k ≠ kv.1) : lookupKey k m = none := by
  induction m with
  | nil => rfl
  | cons kv rest ih =>
    obtain ⟨k1, v1⟩ := kv
    have hk : k ≠ k1 := h (k1, v1) (List.mem_cons_self _ _)
    simp only [lookupKey, if_neg hk]
    exact ih (fun kv hkv => h kv (List.mem_cons_of_mem _ hkv))

/-- Key-sorted binding lists with the same lookups are equal. -/
theorem sortedKeys_ext : ∀ m m' : List (String × AttrVal), SortedKeys m →
    SortedKeys m' → (∀ k, lookupKey k m = lookupKey k m') → m = m' := by
  intro m
  induction m with
  | nil =>
    intro m' _ _ h
    cases m' with
    | nil => rfl
    | cons kv r =>
      exfalso
      have h1 := h kv.1
      simp [lookupKey] at h1
  | cons kv r ih =>
    intro m' hm hm' h
    obtain ⟨k1, v1⟩ := kv
    cases m' with
    | nil =>
      exfalso
      have h1 := h k1
      simp [lookupKey] at h1
    | cons kv2 r2 =>
      obtain ⟨k2, v2⟩ := kv2
      rw [SortedKeys, List.pairwise_cons] at hm hm'
      obtain ⟨hall1, hr1⟩ := hm
      obtain ⟨hall2, hr2⟩ := hm'
      rcases lt_trichotomy k1 k2 with hlt | heq | hgt
      · exfalso
        have h1 := h k1
        have hnone : lookupKey k1 ((k2, v2) :: r2) = none := by
          apply lookupKey_eq_none
          intro kv hkv
          rcases List.mem_cons.mp hkv with rfl | hkv
          · exact ne_of_lt hlt
          · exact ne_of_lt (lt_trans hlt (hall2 kv hkv))
        rw [hnone] at h1
        simp [lookupKey] at h1
      · subst heq
        have hv : v1 = v2 := by
          have h1 := h k1
          simpa [lookupKey] using h1
        subst hv
        have hr : r = r2 := by
          apply ih r2 hr1 hr2
          intro k
          by_cases hk : k = k1
          · subst hk
            rw [lookupKey_eq_none k r (fun kv hkv => ne_of_lt (hall1 kv hkv)),
              lookupKey_eq_none k r2 (fun kv hkv => ne_of_lt (hall2 kv hkv))]
          · have h1 := h k
            simpa [lookupKey, hk] using h1
        rw [hr]
      · exfalso
        have h1 := h k2
        have hnone : lookupKey k2 ((k1, v1) :: r) = none := by
          apply lookupKey_eq_none
          intro kv hkv
          rcases List.mem_cons.mp hkv with rfl | hkv
          · exact ne_of_lt hgt
          · exact ne_of_lt (lt_trans hgt (hall1 kv hkv))
        rw [hnone] at h1
        simp [lookupKey] at h1

/-- Overlaying the same accumulator a second time changes nothing. -/
theorem overlayAttrs_idem (base attrs : List (String × AttrVal))
    (hb : SortedKeys base) :
    overlayAttrs (overlayAttrs base attrs) attrs = overlayAttrs base attrs := by
  apply sortedKeys_ext _ _
    (overlayAttrs_sorted _ _ (overlayAttrs_sorted _ _ hb))
    (overlayAttrs_sorted _ _ hb)
  intro k
  rw [lookupKey_overlayAttrs, lookupKey_overlayAttrs]
  cases lastBinding k attrs <;> simp [Option.or]

/-- C4: `WriteUserAttributeToLogWithKey` treats an absent/empty prior
value as an empty object; on a malformed prior value it returns an error
without writing, leaving the stored value unchanged; on success it
overlays the accumulator's keys onto the parsed object with last write
winning and stores the merged object back; merging the example
accumulators holding key a then key b into an initially absent property
yields the two-key object, and re-merging the same accumulator into the
stored result is idempotent. -/
theorem writeUserAttributeToLog_merge {Config : Type}
    (ctx : CommonHttpCtx Config) (m : List (String × AttrVal)) :
    (WriteUserAttributeToLogWithKey (.ok ()) .absent ctx =
      (.ok (), .encodedObj (overlayAttrs [] ctx.userAttribute))) ∧
    (∀ setResult, WriteUserAttributeToLogWithKey setResult .malformed ctx =
      (.error (), .malformed)) ∧
    (WriteUserAttributeToLogWithKey (.ok ()) (.encodedObj m) ctx =
      (.ok (), .encodedObj (overlayAttrs m ctx.userAttribute))) ∧
    (∀ k, lookupKey k (overlayAttrs m ctx.userAttribute) =
      (lastBinding k ctx.userAttribute).or (lookupKey k m)) ∧
    (SortedKeys m →
      WriteUserAttributeToLogWithKey (.ok ())
        (.encodedObj (overlayAttrs m ctx.userAttribute)) ctx =
      (.ok (), .encodedObj (overlayAttrs m ctx.userAttribute))) ∧
    ((WriteUserAttributeToLogWithKey (.ok ()) .absent
        { ctx with userAttribute := [("a", AttrVal.str "1")] }).2 =
      .encodedObj [("a", AttrVal.str "1")]) ∧
    ((WriteUserAttributeToLogWithKey (.ok ())
        (.encodedObj [("a", AttrVal.str "1")])
        { ctx with userAttribute := [("b", AttrVal.str "2")] }).2 =
      .encodedObj [("a", AttrVal.str "1"), ("b", AttrVal.str "2")]) := by
  refine ⟨?_, ?_, ?_, ?_, ?_, ?_, ?_⟩
  · simp [WriteUserAttributeToLogWithKey, LogPropVal.isEmptyStr]
  · intro setResult
    cases setResult <;>
      simp [WriteUserAttributeToLogWithKey, LogPropVal.isEmptyStr,
        parseLogProp]
  · simp [WriteUserAttributeToLogWithKey, LogPropVal.isEmptyStr,
      parseLogProp]
  · exact lookupKey_overlayAttrs m ctx.userAttribute
  · intro hm
    simp [WriteUserAttributeToLogWithKey, LogPropVal.isEmptyStr,
      parseLogProp, overlayAttrs_idem m ctx.userAttribute hm]
  · have e : overlayAttrs [] [("a", AttrVal.str "1")] =
        [("a", AttrVal.str "1")] := rfl
    simp [WriteUserAttributeToLogWithKey, LogPropVal.isEmptyStr, e]
  · have hlt : ¬("b" : String) < "a" := by
      simp [String.lt_iff_toList_lt]
      decide
    have hne : ("b" : String) ≠ "a" := by decide
    have e : overlayAttrs [("a", AttrVal.str "1")] [("b", AttrVal.str "2")] =
        [("a", AttrVal.str "1"), ("b", AttrVal.str "2")] := by
      simp [overlayAttrs, insertSorted, hlt, hne]
    simp [WriteUserAttributeToLogWithKey, LogPropVal.isEmptyStr,
      parseLogProp, e]

/-- C4 witness: a malformed prior value makes a concrete merge return an
error with the stored value untouched, and re-merging the accumulator
holding key b into the already-merged two-key object stores the same
object back. -/
theorem writeUserAttributeToLog_merge_witness :
    (WriteUserAttributeToLogWithKey (.ok ()) .malformed
        { ctxMatchedAll with userAttribute := [("b", AttrVal.str "2")] } =
      (.error (), .malformed)) ∧
    (WriteUserAttributeToLogWithKey (.ok ())
        (.encodedObj [("a", AttrVal.str "1"), ("b", AttrVal.str "2")])
        { ctxMatchedAll with userAttribute := [("b", AttrVal.str "2")] } =
      (.ok (), .encodedObj [("a", AttrVal.str "1"), ("b", AttrVal.str "2")])) := by
  have h := @writeUserAttributeToLog_merge Nat
    { ctxMatchedAll with userAttribute := [("b", AttrVal.str "2")] }
    [("a", AttrVal.str "1")]
  have h5 := h.2.2.2.2.1 (by simp [SortedKeys])
  have hlt : ¬("b" : String) < "a" := by
    simp [String.lt_iff_toList_lt]
    decide
  have hne : ("b" : String) ≠ "a" := by decide
  have e : overlayAttrs [("a", AttrVal.str "1")] [("b", AttrVal.str "2")] =
      [("a", AttrVal.str "1"), ("b", AttrVal.str "2")] := by
    simp [overlayAttrs, insertSorted, hlt, hne]
  exact ⟨h.2.1 (.ok ()), by simpa [e] using h5⟩

/-! ## Tick-scheduler lemmas -/

/-- Index access into `List.zipWith`. -/
theorem zipWith_getElem {α β γ : Type} (f : α → β → γ) (as : List α)
    (bs : List β) (j : Nat) :
    (List.zipWith f as bs)[j]? =
      match as[j]?, bs[j]? with
      | some a, some b => some (f a b)
      | _, _ => none := by
  induction as generalizing bs j with
  | nil => simp
  | cons a as ih =>
    cases bs with
    | nil => simp
    | cons b bs =>
      cases j with
      | zero => simp
      | succ j => simpa using ih bs j

/-- `OnTick` preserves the number of entries and fire flags. -/
theorem OnTick_length (clock : Nat → Int) (i : Nat)
    (es : List TickFuncEntry) :
    (OnTick clock i es).1.length = es.length ∧
    (OnTick clock i es).2.length = es.length := by
  induction es generalizing i with
  | nil => simp [OnTick]
  | cons e rest ih =>
    have := ih (i + 1)
    simp [OnTick, this.1, this.2]

/-- `OnTick` acts on each entry independently: entry number `j` is
evaluated by `tickEntryStep` at the clock value observed at position
`i + j`. -/
theorem OnTick_getElem (clock : Nat → Int) (i : Nat)
    (es : List TickFuncEntry) (j : Nat) :
    (OnTick clock i es).1[j]? =
      (es[j]?).map (fun e => (tickEntryStep (clock (i + j)) e).1) ∧
    (OnTick clock i es).2[j]? =
      (es[j]?).map (fun e => (tickEntryStep (clock (i + j)) e).2) := by
  induction es generalizing i j with
  | nil => simp [OnTick]
  | cons e rest ih =>
    cases j with
    | zero => simp [OnTick]
    | succ j =>
      have h := ih (i + 1) j
      constructor
      · rw [show i + (j + 1) = i + 1 + j by omega]
        simpa [OnTick] using h.1
      · rw [show i + (j + 1) = i + 1 + j by omega]
        simpa [OnTick] using h.2

/-- Running the whole entry list through `n` ticks evolves each entry and
its fire count exactly as the single-entry reference run. -/
theorem runTicks_getElem (G : Int) (es : List TickFuncEntry) (n j : Nat) :
    (runTicks G es n).1[j]? =
      (es[j]?).map (fun e => (singleRun G e n).1) ∧
    (runTicks G es n).2[j]? =
      (es[j]?).map (fun e => (singleRun G e n).2) := by
  induction n with
  | zero =>
    constructor
    · simp [runTicks, singleRun]
    · by_cases hj : j < es.length
      · simp [runTicks, singleRun, List.getElem?_replicate, hj,
          List.getElem?_eq_getElem hj]
      · have h1 : es[j]? = none := by
          simp [List.getElem?_eq_none_iff]
          omega
        simp [runTicks, singleRun, List.getElem?_replicate, hj, h1]
  | succ n ih =>
    have hOn1 := (OnTick_getElem (fun _ => ((n : Int) + 1) * G) 0
      (runTicks G es n).1 j).1
    have hOn2 := (OnTick_getElem (fun _ => ((n : Int) + 1) * G) 0
      (runTicks G es n).1 j).2
    constructor
    · show (OnTick (fun _ => ((n : Int) + 1) * G) 0 (runTicks G es n).1).1[j]? = _
      rw [hOn1, ih.1]
      cases es[j]? <;> simp [singleRun]
    · show (List.zipWith (fun c f => c + if f then 1 else 0)
          (runTicks G es n).2
          (OnTick (fun _ => ((n : Int) + 1) * G) 0 (runTicks G es n).1).2)[j]? = _
      rw [zipWith_getElem, ih.2, hOn2, ih.1]
      cases es[j]? <;> simp [singleRun]

/-- Closed form of the reference run for a fresh entry whose period is the
multiple `m * G` of the tick granularity `G`: after `n` ticks its
last-fired timestamp is the largest elapsed multiple of its period, and
it has fired exactly `n / m` times. -/
theorem singleRun_closed (G m : Nat) (hG : 0 < G) (hm : 0 < m) (n : Nat) :
    singleRun (G : Int) (RegisteTickFunc ((m : Int) * G)) n =
      ({ lastExecuted := ((n / m * m * G : Nat) : Int),
         tickPeriod := (m : Int) * G }, n / m) := by
  induction n with
  | zero => simp [singleRun, RegisteTickFunc]
  | succ n ih =>
    have hq := Nat.div_add_mod n m
    set q := n / m with hqdef
    set r := n % m with hrdef
    have hrlt : r < m := Nat.mod_lt n hm
    have hncast : (n : Int) = (m : Int) * q + r := by exact_mod_cast hq.symm
    have hsub : ((n : Int) + 1) * G - ((q * m * G : Nat) : Int) =
        ((r : Int) + 1) * (G : Int) := by
      push_cast
      rw [hncast]
      ring
    simp only [singleRun, ih]
    by_cases hf : r + 1 = m
    · have hcond : (m : Int) * G ≤
          ((n : Int) + 1) * G - ((q * m * G : Nat) : Int) := by
        rw [hsub]
        have hrm : ((r : Int) + 1) = (m : Int) := by exact_mod_cast hf
        rw [hrm]
      have hmul : (q + 1) * m = n + 1 := by
        have h1 : (q + 1) * m = q * m + m := by ring
        have h3 : q * m = m * q := by ring
        omega
      have hdiv : (n + 1) / m = q + 1 := by
        rw [show n + 1 = (q + 1) * m from hmul.symm,
          Nat.mul_div_cancel _ hm]
      have hlast : ((n : Int) + 1) * (G : Int) =
          (((n + 1) / m * m * G : Nat) : Int) := by
        rw [hdiv]
        push_cast
        have hc : ((q : Int) + 1) * m = (n : Int) + 1 := by exact_mod_cast hmul
        calc ((n : Int) + 1) * (G : Int)
            = (((q : Int) + 1) * m) * (G : Int) := by rw [hc]
          _ = ((q : Int) + 1) * (m : Int) * (G : Int) := by ring
      have hstep : tickEntryStep (((n : Int) + 1) * G)
          { lastExecuted := ((q * m * G : Nat) : Int),
            tickPeriod := (m : Int) * G } =
          ({ lastExecuted := ((n : Int) + 1) * G,
             tickPeriod := (m : Int) * G }, true) := by
        simp only [tickEntryStep]
        rw [if_pos hcond]
      rw [hstep]
      simp only [if_true]
      rw [hlast, hdiv]
    · have hrlt2 : r + 1 < m := by omega
      have hcond : ¬((m : Int) * G ≤
          ((n : Int) + 1) * G - ((q * m * G : Nat) : Int)) := by
        rw [hsub]
        push_neg
        apply mul_lt_mul_of_pos_right
        · exact_mod_cast hrlt2
        · exact_mod_cast hG
      have hdiv : (n + 1) / m = q := by
        have e1 : n + 1 = (r + 1) + m * q := by
          have h3 : q * m = m * q := by ring
          omega
        rw [e1, Nat.add_mul_div_left _ _ hm, Nat.div_eq_of_lt hrlt2,
          Nat.zero_add]
      have hstep : tickEntryStep (((n : Int) + 1) * G)
          { lastExecuted := ((q * m * G : Nat) : Int),
            tickPeriod := (m : Int) * G } =
          ({ lastExecuted := ((q * m * G : Nat) : Int),
             tickPeriod := (m : Int) * G }, false) := by
        simp only [tickEntryStep]
        rw [if_neg hcond]
      rw [hstep]
      simp only [Bool.false_eq_true, if_false]
      rw [hdiv]
      simp

/-- C5: on every tick signal the scheduler evaluates all registered
entries in registration order, entry number `j` being evaluated by
`tickEntryStep` at the clock value it observes; an entry fires exactly
when the elapsed time since its last firing is at least its period, in
which case its last-fired timestamp becomes the observed time; and with
ticks arriving exactly every granularity `G` and a fresh entry of period
`m * G`, after `n` ticks (elapsed time `T = n * G`) that entry has fired
`n / m = T / (m * G)` times. -/
theorem tick_scheduler_fairness (clock : Nat → Int) (i : Nat)
    (es : List TickFuncEntry) (j : Nat) :
    ((OnTick clock i es).1.length = es.length ∧
     (OnTick clock i es).2.length = es.length) ∧
    ((OnTick clock i es).1[j]? =
      (es[j]?).map (fun e => (tickEntryStep (clock (i + j)) e).1)) ∧
    ((OnTick clock i es).2[j]? =
      (es[j]?).map (fun e => (tickEntryStep (clock (i + j)) e).2)) ∧
    (∀ (t : Int) (e : TickFuncEntry),
      ((tickEntryStep t e).2 = true ↔ e.tickPeriod ≤ t - e.lastExecuted) ∧
      ((tickEntryStep t e).1.lastExecuted =
        if (tickEntryStep t e).2 then t else e.lastExecuted) ∧
      (tickEntryStep t e).1.tickPeriod = e.tickPeriod) ∧
    (∀ G m n : Nat, 0 < G → 0 < m →
      es[j]? = some (RegisteTickFunc ((m : Int) * G)) →
      (runTicks (G : Int) es n).2[j]? = some (n / m) ∧
      n / m = n * G / (m * G)) := by
  refine ⟨OnTick_length clock i es, (OnTick_getElem clock i es j).1,
    (OnTick_getElem clock i es j).2, ?_, ?_⟩
  · intro t e
    by_cases h : e.tickPeriod ≤ t - e.lastExecuted <;>
      simp [tickEntryStep, h]
  · intro G m n hG hm hj
    have h := (runTicks_getElem (G : Int) es n j).2
    rw [hj] at h
    constructor
    · rw [h]
      simp [singleRun_closed G m hG hm n]
    · simp [Nat.mul_div_mul_right, hG]

/-- C5 witness: one fresh entry with period 300 under granularity 100
fires twice over seven ticks, and 7 / 3 equals 700 / 300. -/
theorem tick_scheduler_fairness_witness :
    ((runTicks ((100 : Nat) : Int)
        [RegisteTickFunc (((3 : Nat) : Int) * ((100 : Nat) : Int))]
        7).2[0]? = some 2) ∧
    (7 : Nat) / 3 = 700 / 300 := by
  have h := (tick_scheduler_fairness (fun _ => 0) 0
      [RegisteTickFunc (((3 : Nat) : Int) * ((100 : Nat) : Int))]
      0).2.2.2.2 100 3 7 (by decide) (by decide) rfl
  refine ⟨?_, by decide⟩
  have h1 := h.1
  norm_num at h1 ⊢
  exact h1

end Wrapper
